import Mathlib

/-!
Shallow embedding of the `reformation` crate (src/src/lib.rs and
src/reformation_derive/src/lib.rs).

The runtime side (src/src/lib.rs) provides the `Reformation` trait
(`regex_str`, `captures_count`, `from_captures`), the primitive
implementations generated by `group_impl_parse_primitive`, and the
`NoRegexMatch` error type with its `Display` implementation.

The derive side (src/reformation_derive/src/lib.rs) provides
`arguments` (the template placeholder scanner), `get_regex_str`,
`get_fields`, `impl_from_str_body`, `quote_impl_reformation`
(the generated `Reformation` impl: composed pattern, capture count,
sequential `from_captures` with offset threading) and
`quote_impl_from_str` (the generated `FromStr::from_str`).

Machine integers are modelled as `Nat`/`Int` with explicit range checks
where the Rust `parse` would overflow.  The external regex engine and the
standard library's string-to-number conversions are modelled explicitly at
the granularity the source uses them (capture-group lookup, leftmost
substring search, decimal parsing with range check).
-/

namespace Reformation

/-- Model of `regex::Captures`: index 0 is the whole match, indices 1.. are
capture groups; `none` means the group does not exist or did not
participate in the match. -/
abbrev Captures : Type := List (Option String)

/-- Model of `regex::Captures::get`: `none` when the index is out of range
or the group did not participate. -/
def capGet (c : Captures) (i : Nat) : Option String :=
  c.getD i none

/-- The error type `NoRegexMatch` from src/src/lib.rs (lines 77-81):
`format: &'static str` and `request: String`. -/
structure NoRegexMatch where
  format : String
  request : String
deriving DecidableEq

/-- Outcome of a fallible Rust computation in this crate: `panic` models an
`unwrap` panic, `noMatch` models a returned boxed `NoRegexMatch`, `err`
models any other boxed error (conversion failures), `ok` is success. -/
inductive PResult (α : Type) where
  | panic : PResult α
  | noMatch : NoRegexMatch → PResult α
  | err : String → PResult α
  | ok : α → PResult α
deriving DecidableEq

/-- Body of `from_captures` generated by `group_impl_parse_primitive`
(src/src/lib.rs lines 120-123):
`let res = c.get(offset).unwrap().as_str().parse::<$name>()?; Ok(res)`.
A missing or non-participating group makes `unwrap` panic; otherwise the
matched text is handed to the type's `parse`. -/
def prim_from_captures (parse : String → Except String α) (c : Captures)
    (offset : Nat) : PResult α :=
  match capGet c offset with
  | none => PResult.panic
  | some s =>
    match parse s with
    | Except.ok v => PResult.ok v
    | Except.error e => PResult.err e

/-- Decimal digit value of a character, if it is a digit. -/
def digitVal? (c : Char) : Option Nat :=
  if 48 ≤ c.toNat ∧ c.toNat ≤ 57 then some (c.toNat - 48) else none

/-- Accumulate decimal digits; `none` on the first non-digit. -/
def digitsGo : List Char → Nat → Option Nat
  | [], acc => some acc
  | c :: rest, acc =>
    match digitVal? c with
    | none => none
    | some d => digitsGo rest (acc * 10 + d)

/-- Value of a non-empty all-digit character sequence. -/
def digitsVal? : List Char → Option Nat
  | [] => none
  | c :: rest => digitsGo (c :: rest) 0

/-- Model of Rust's `str::parse` for an unsigned integer type with maximum
value `max`: optional leading `+`, one or more digits, range check. -/
def rustParseUnsigned (max : Nat) (s : String) : Except String Nat :=
  let cs := match s.data with
    | c :: rest => if c = '+' then rest else c :: rest
    | [] => []
  match digitsVal? cs with
  | none => Except.error "invalid digit found in string"
  | some n =>
    if n ≤ max then Except.ok n
    else Except.error "number too large to fit in target type"

/-- Model of Rust's `str::parse` for a signed integer type with inclusive
range `[min, max]`: optional sign, one or more digits, range check. -/
def rustParseSigned (min max : Int) (s : String) : Except String Int :=
  let (sign, cs) : Int × List Char := match s.data with
    | c :: rest =>
      if c = '+' then (1, rest)
      else if c = '-' then (-1, rest)
      else (1, c :: rest)
    | [] => (1, [])
  match digitsVal? cs with
  | none => Except.error "invalid digit found in string"
  | some n =>
    let v : Int := sign * Int.ofNat n
    if min ≤ v ∧ v ≤ max then Except.ok v
    else Except.error "number too small or too large to fit in target type"

/-- The sub-pattern string for unsigned integers, `r"(\d+)"`
(src/src/lib.rs line 128). -/
def unsignedPat : String := "(\\d+)"

/-- The sub-pattern string for signed integers, `r"([\+-]?\d+)"`
(src/src/lib.rs line 129). -/
def signedPat : String := "([\\+-]?\\d+)"

/-- The sub-pattern string for floats,
`r"((?:[\+-]?\d+(?:.\d*)?|.\d+)(?:[eE][\+-]?\d+)?)"`
(src/src/lib.rs line 130). -/
def floatPat : String := "((?:[\\+-]?\\d+(?:.\\d*)?|.\\d+)(?:[eE][\\+-]?\\d+)?)"

/-- The sub-pattern string for `String`, `r"(.*)"` (src/src/lib.rs line 131). -/
def stringPat : String := "(.*)"

/-- One implementation of the `Reformation` trait (src/src/lib.rs
lines 90-102): the sub-pattern string, the number of capture groups it
uses, and reconstruction from captures at an offset. -/
structure ReformationImpl (α : Type) where
  regexStr : String
  captures_count : Nat
  from_captures : Captures → Nat → PResult α

/-- `impl Reformation for u8` from `group_impl_parse_primitive`. -/
def u8_Reformation : ReformationImpl Nat :=
  ⟨unsignedPat, 1, prim_from_captures (rustParseUnsigned 255)⟩

/-- `impl Reformation for u16`. -/
def u16_Reformation : ReformationImpl Nat :=
  ⟨unsignedPat, 1, prim_from_captures (rustParseUnsigned 65535)⟩

/-- `impl Reformation for u32`. -/
def u32_Reformation : ReformationImpl Nat :=
  ⟨unsignedPat, 1, prim_from_captures (rustParseUnsigned (2 ^ 32 - 1))⟩

/-- `impl Reformation for u64`. -/
def u64_Reformation : ReformationImpl Nat :=
  ⟨unsignedPat, 1, prim_from_captures (rustParseUnsigned (2 ^ 64 - 1))⟩

/-- `impl Reformation for u128`. -/
def u128_Reformation : ReformationImpl Nat :=
  ⟨unsignedPat, 1, prim_from_captures (rustParseUnsigned (2 ^ 128 - 1))⟩

/-- `impl Reformation for usize` (64-bit platform model). -/
def usize_Reformation : ReformationImpl Nat :=
  ⟨unsignedPat, 1, prim_from_captures (rustParseUnsigned (2 ^ 64 - 1))⟩

/-- `impl Reformation for i8`. -/
def i8_Reformation : ReformationImpl Int :=
  ⟨signedPat, 1, prim_from_captures (rustParseSigned (-(2 ^ 7)) (2 ^ 7 - 1))⟩

/-- `impl Reformation for i16`. -/
def i16_Reformation : ReformationImpl Int :=
  ⟨signedPat, 1, prim_from_captures (rustParseSigned (-(2 ^ 15)) (2 ^ 15 - 1))⟩

/-- `impl Reformation for i32`. -/
def i32_Reformation : ReformationImpl Int :=
  ⟨signedPat, 1, prim_from_captures (rustParseSigned (-(2 ^ 31)) (2 ^ 31 - 1))⟩

/-- `impl Reformation for i64`. -/
def i64_Reformation : ReformationImpl Int :=
  ⟨signedPat, 1, prim_from_captures (rustParseSigned (-(2 ^ 63)) (2 ^ 63 - 1))⟩

/-- `impl Reformation for i128`. -/
def i128_Reformation : ReformationImpl Int :=
  ⟨signedPat, 1, prim_from_captures (rustParseSigned (-(2 ^ 127)) (2 ^ 127 - 1))⟩

/-- `impl Reformation for isize` (64-bit platform model). -/
def isize_Reformation : ReformationImpl Int :=
  ⟨signedPat, 1, prim_from_captures (rustParseSigned (-(2 ^ 63)) (2 ^ 63 - 1))⟩

/-- `impl Reformation for f32`.  The numeric conversion itself is an
external standard-library leaf outside this repository; the model keeps
the matched text.  No claim inspects the reconstructed float value, only
the sub-pattern and the capture count. -/
def f32_Reformation : ReformationImpl String :=
  ⟨floatPat, 1, prim_from_captures (fun s => Except.ok s)⟩

/-- `impl Reformation for f64`; same modelling note as `f32_Reformation`. -/
def f64_Reformation : ReformationImpl String :=
  ⟨floatPat, 1, prim_from_captures (fun s => Except.ok s)⟩

/-- `impl Reformation for String`: Rust's `str::parse::<String>` always
succeeds with the text itself. -/
def String_Reformation : ReformationImpl String :=
  ⟨stringPat, 1, prim_from_captures (fun s => Except.ok s)⟩

/-- Count capturing groups in a regex pattern string: a `(` that is not
escaped by a preceding backslash and is not followed by `?` (which starts
a non-capturing or special group).  The boolean argument records whether
the previous character was an unescaped backslash. -/
def countGroups : List Char → Bool → Nat
  | [], _ => 0
  | c :: rest, esc =>
    if c = '\\' then countGroups rest (!esc)
    else if c = '(' then
      (if esc then 0 else if rest.head? = some '?' then 0 else 1)
        + countGroups rest false
    else countGroups rest false

/-- Number of capturing groups a pattern string contributes. -/
def capturingGroups (s : String) : Nat :=
  countGroups s.data false

/-- A surviving struct field as the derive macro sees it: its identifier
together with the `Reformation` impl of its type (`regex_str`,
`captures_count`, `from_captures`). -/
structure Field (V : Type) where
  name : String
  width : Nat
  regexStr : String
  from_captures : Captures → Nat → PResult V

/-- Attach a field name to a type's `Reformation` impl. -/
def fieldOf (n : String) (impl : ReformationImpl α) : Field α :=
  ⟨n, impl.captures_count, impl.regexStr, impl.from_captures⟩

/-- Body of the generated `from_captures` (quote_impl_reformation,
src/reformation_derive/src/lib.rs lines 130-138): for each surviving
field in order, `let name = <T>::from_captures(&captures, offset)?;
offset += <T>::captures_count();`, finally `Ok(Self { names })`.
The record is modelled as the list of reconstructed field values in
schema order. -/
def derived_from_captures : List (Field V) → Captures → Nat → PResult (List V)
  | [], _, _ => PResult.ok []
  | f :: rest, c, offset =>
    match f.from_captures c offset with
    | PResult.panic => PResult.panic
    | PResult.noMatch e => PResult.noMatch e
    | PResult.err e => PResult.err e
    | PResult.ok v =>
      match derived_from_captures rest c (offset + f.width) with
      | PResult.panic => PResult.panic
      | PResult.noMatch e => PResult.noMatch e
      | PResult.err e => PResult.err e
      | PResult.ok vs => PResult.ok (v :: vs)

/-- Body of the generated `captures_count` (quote_impl_reformation,
lines 124-128): `let mut count = 0; count += <T>::captures_count(); ...`. -/
def derived_captures_count (fields : List (Field V)) : Nat :=
  fields.foldl (fun count f => count + f.width) 0

/-- Starting capture index owned by each field: the first field starts at
the base offset, each later field at the previous start plus the previous
field's capture width (the `offset += captures_count` threading). -/
def fieldOffsets : List Nat → Nat → List Nat
  | [], _ => []
  | w :: ws, off => off :: fieldOffsets ws (off + w)

/-- The outcome of each surviving field's reconstruction when invoked at
its own assigned offset, independently of the others. -/
def fieldOutcomes (fields : List (Field V)) (c : Captures) (off : Nat) :
    List (PResult V) :=
  (fields.zip (fieldOffsets (fields.map Field.width) off)).map
    (fun p => p.1.from_captures c p.2)

/-- Sequence a list of per-field outcomes: the first non-`ok` outcome
short-circuits the whole computation (the behaviour of the `?` operator in
the generated `from_captures`). -/
def collectResults : List (PResult V) → PResult (List V)
  | [] => PResult.ok []
  | PResult.panic :: _ => PResult.panic
  | PResult.noMatch e :: _ => PResult.noMatch e
  | PResult.err e :: _ => PResult.err e
  | PResult.ok v :: rest =>
    match collectResults rest with
    | PResult.panic => PResult.panic
    | PResult.noMatch e => PResult.noMatch e
    | PResult.err e => PResult.err e
    | PResult.ok vs => PResult.ok (v :: vs)

/-- The open-bracket character scanned for by `arguments`. -/
def openBrace : Char := Char.ofNat 123

/-- The close-bracket character scanned for by `arguments`. -/
def closeBrace : Char := Char.ofNat 125

/-- Model of `HashSet::insert`: membership-preserving insertion (only
membership in the resulting set is ever consumed). -/
def insertNew (found : List String) (s : String) : List String :=
  if s ∈ found then found else found ++ [s]

/-- The slice `format_string.get(start..stop)` of the scanned template:
the characters at positions `start` (inclusive) to `stop` (exclusive).
Rust slices at byte positions; both bounds produced by the scanner sit on
character boundaries, so character positions are equivalent. -/
def substrOf (cs : List Char) (start stop : Nat) : String :=
  String.mk ((cs.drop start).take (stop - start))

/-- The scanning loop of `arguments` (src/reformation_derive/src/lib.rs
lines 234-252) over `char_indices().peekable()`: `cs` is the whole
template (for slicing), `i` the position of the current character.
An open bracket whose peeked successor is not another open bracket pushes
the position just after it; an open bracket followed by an open bracket
pushes nothing (and does not consume the peeked character).  A close
bracket pops the stack if non-empty and records the enclosed substring.
End of input returns the collected names, discarding any unmatched
opens. -/
def argumentsAux (cs : List Char) :
    Nat → List Char → List Nat → List String → List String
  | _, [], _, found => found
  | i, c :: rest, stack, found =>
    if c = openBrace then
      if rest.head? = some openBrace then
        argumentsAux cs (i + 1) rest stack found
      else
        argumentsAux cs (i + 1) rest ((i + 1) :: stack) found
    else if c = closeBrace then
      match stack with
      | [] => argumentsAux cs (i + 1) rest stack found
      | start :: stack' =>
        argumentsAux cs (i + 1) rest stack'
          (insertNew found (substrOf cs start i))
    else
      argumentsAux cs (i + 1) rest stack found

/-- `arguments` (src/reformation_derive/src/lib.rs lines 230-254): the set
of placeholder names found in a format string. -/
def arguments (s : String) : List String :=
  argumentsAux s.data 0 s.data [] []

/-- State of the format-substitution scan: inside literal text, or inside
a placeholder accumulating its name. -/
inductive FmtState where
  | lit : FmtState
  | name : List Char → FmtState

/-- Model of Rust's `format!` with named arguments, as invoked by the
generated `regex_str` (`format!(#re_str, #(#names = <#types>::regex_str()),*)`,
src/reformation_derive/src/lib.rs line 118): doubled brackets are literal,
`{name}` is replaced by the looked-up substitution, and a malformed format
string or an unknown name is a compile error of the generated code,
modelled as `none`. -/
def formatNamedGo (lookup : String → Option String) :
    List Char → FmtState → Option (List Char)
  | [], FmtState.lit => some []
  | [], FmtState.name _ => none
  | [c], FmtState.lit =>
    if c = openBrace ∨ c = closeBrace then none else some [c]
  | c :: c2 :: rest, FmtState.lit =>
    if c = openBrace then
      if c2 = openBrace then
        (formatNamedGo lookup rest FmtState.lit).map (openBrace :: ·)
      else
        formatNamedGo lookup (c2 :: rest) (FmtState.name [])
    else if c = closeBrace then
      if c2 = closeBrace then
        (formatNamedGo lookup rest FmtState.lit).map (closeBrace :: ·)
      else none
    else
      (formatNamedGo lookup (c2 :: rest) FmtState.lit).map (c :: ·)
  | c :: rest, FmtState.name acc =>
    if c = closeBrace then
      match lookup (String.mk acc) with
      | none => none
      | some sub => (formatNamedGo lookup rest FmtState.lit).map (sub.data ++ ·)
    else
      formatNamedGo lookup rest (FmtState.name (acc ++ [c]))

/-- The composed pattern of the generated `regex_str`: the template with
every placeholder replaced by the named surviving field's sub-pattern
(`none` models a format-time compile error of the generated code). -/
def composedPattern (re_str : String) (surviving : List (Field V)) :
    Option String :=
  (formatNamedGo
      (fun n => (surviving.find? (fun f => f.name = n)).map Field.regexStr)
      re_str.data FmtState.lit).map String.mk

/-- The `Reformation` impl generated for a derived struct: composed
pattern, total capture count, and sequential reconstruction, all driven by
the surviving fields only. -/
structure DerivedImpl (V : Type) where
  regexStr : Option String
  captures_count : Nat
  from_captures : Captures → Nat → PResult (List V)

/-- `quote_impl_reformation` (src/reformation_derive/src/lib.rs
lines 105-140): builds the three generated trait methods from the
template string and the surviving fields. -/
def quote_impl_reformation (re_str : String) (surviving : List (Field V)) :
    DerivedImpl V :=
  { regexStr := composedPattern re_str surviving
    captures_count := derived_captures_count surviving
    from_captures := derived_from_captures surviving }

/-- The `#[reformation(...)]` attribute payload as `impl_from_str_body`
receives it: a parenthesized string literal, or anything else. -/
inductive AttrExpr where
  | strLit : String → AttrExpr
  | otherExpr : AttrExpr

/-- `get_regex_str` (src/reformation_derive/src/lib.rs lines 193-202). -/
def get_regex_str : AttrExpr → Except String String
  | AttrExpr.strLit s => Except.ok s
  | AttrExpr.otherExpr =>
    Except.error "regex_parse argument must be string literal."

/-- The shape of the annotated type as `get_fields` inspects it. -/
inductive StructData (V : Type) where
  | structNamed : List (Field V) → StructData V
  | structUnnamed : StructData V
  | notStruct : StructData V

/-- `get_fields` (src/reformation_derive/src/lib.rs lines 174-190). -/
def get_fields : StructData V → Except String (List (Field V))
  | StructData.structNamed fields => Except.ok fields
  | StructData.structUnnamed =>
    Except.error "regex_parse supports only structs with named fields."
  | StructData.notStruct => Except.error "regex_parse supports only structs."

/-- `impl_from_str_body` (src/reformation_derive/src/lib.rs lines 77-103):
extract the template string, scan its placeholders, collect the struct's
named fields, keep (in schema order) those whose name occurs among the
placeholders, and emit the generated impl from the surviving fields. -/
def impl_from_str_body (re : AttrExpr) (ds : StructData V) :
    Except String (DerivedImpl V) :=
  match get_regex_str re with
  | Except.error e => Except.error e
  | Except.ok re_str =>
    let args := arguments re_str
    match get_fields ds with
    | Except.error e => Except.error e
    | Except.ok fields =>
      let surviving := fields.filter (fun f => decide (f.name ∈ args))
      Except.ok (quote_impl_reformation re_str surviving)

/-- The generated `FromStr::from_str` (quote_impl_from_str,
src/reformation_derive/src/lib.rs lines 152-167): run the compiled regex's
`captures` on the input; on no captures return
`NoRegexMatch { format: Self::regex_str(), request: input }`; otherwise
call `Self::from_captures(&captures, 1)`.  The regex engine is a
parameter taking the pattern string and the input. -/
def from_str (engine : String → String → Option Captures)
    (regexStr : String) (fields : List (Field V)) (input : String) :
    PResult (List V) :=
  match engine regexStr input with
  | none => PResult.noMatch ⟨regexStr, input⟩
  | some c => derived_from_captures fields c 1

/-- Is `p` a prefix of `s`? -/
def isPre : List Char → List Char → Bool
  | [], _ => true
  | _ :: _, [] => false
  | a :: as, b :: bs => a = b && isPre as bs

/-- Leftmost position where `p` occurs as a contiguous block of `s`. -/
def findSub (p : List Char) : List Char → Option Nat
  | [] => if isPre p [] then some 0 else none
  | c :: rest =>
    if isPre p (c :: rest) then some 0
    else (findSub p rest).map (· + 1)

/-- Model of `regex::Regex::captures` for a pattern that is a plain
literal string (no metacharacters), reflecting the regex crate's
documented semantics: an unanchored leftmost search that may match a
proper substring of the input; group 0 is the matched region. -/
def literalCaptures (pattern input : String) : Option Captures :=
  (findSub pattern.data input.data).map (fun _ => [some pattern])

/-- Escape a character the way Rust's `Debug` formatting of strings does
for the characters appearing in this development. -/
def escapeDebugChar (c : Char) : List Char :=
  if c = '\\' then ['\\', '\\']
  else if c = '"' then ['\\', '"']
  else if c = '\n' then ['\\', 'n']
  else if c = '\t' then ['\\', 't']
  else if c = '\r' then ['\\', 'r']
  else [c]

/-- Model of Rust's `{:?}` rendering of a string: quoted and escaped. -/
def rustDebug (s : String) : String :=
  String.mk ('"' :: (s.data.map escapeDebugChar).flatten ++ ['"'])

/-- `impl fmt::Display for NoRegexMatch` (src/src/lib.rs lines 84-88):
`write!(f, "String {:?} does not match format r{:?}", self.format,
self.request)`. -/
def NoRegexMatch.display (e : NoRegexMatch) : String :=
  "String " ++ rustDebug e.format ++ " does not match format r"
    ++ rustDebug e.request

/-! Helper lemmas. -/

theorem derived_captures_count_eq_sum (fields : List (Field V)) :
    derived_captures_count fields = (fields.map Field.width).sum := by
  suffices h : ∀ acc, fields.foldl (fun count f => count + f.width) acc
      = acc + (fields.map Field.width).sum by
    simpa [derived_captures_count] using h 0
  induction fields with
  | nil => intro acc; simp
  | cons f fs ih =>
    intro acc
    simp [List.foldl_cons, ih, Nat.add_assoc]

theorem fieldOffsets_length (ws : List Nat) (off : Nat) :
    (fieldOffsets ws off).length = ws.length := by
  induction ws generalizing off with
  | nil => rfl
  | cons w ws ih => simp [fieldOffsets, ih]

theorem fieldOffsets_getD (ws : List Nat) (off i : Nat) (h : i < ws.length) :
    (fieldOffsets ws off).getD i 0 = off + ((ws.take i).sum) := by
  induction ws generalizing off i with
  | nil => simp at h
  | cons w ws ih =>
    cases i with
    | zero => simp [fieldOffsets]
    | succ i =>
      have h' : i < ws.length := by simpa using h
      have hih := ih (off + w) i h'
      simp only [fieldOffsets, List.getD_cons_succ, List.take_succ_cons,
        List.sum_cons, hih]
      omega

theorem fieldOutcomes_cons (f : Field V) (fs : List (Field V))
    (c : Captures) (off : Nat) :
    fieldOutcomes (f :: fs) c off
      = f.from_captures c off :: fieldOutcomes fs c (off + f.width) := by
  simp [fieldOutcomes, fieldOffsets]

theorem derived_eq_collect (fields : List (Field V)) (c : Captures)
    (off : Nat) :
    derived_from_captures fields c off
      = collectResults (fieldOutcomes fields c off) := by
  induction fields generalizing off with
  | nil => simp [derived_from_captures, fieldOutcomes, fieldOffsets,
      collectResults]
  | cons f fs ih =>
    rw [fieldOutcomes_cons]
    simp only [derived_from_captures, collectResults]
    cases h : f.from_captures c off <;> simp [collectResults, ih]

theorem collect_ok_iff (os : List (PResult V)) (vs : List V) :
    collectResults os = PResult.ok vs ↔ os = vs.map PResult.ok := by
  induction os generalizing vs with
  | nil =>
    cases vs <;> simp [collectResults]
  | cons r os ih =>
    cases r with
    | panic => cases vs <;> simp [collectResults]
    | noMatch e => cases vs <;> simp [collectResults]
    | err e => cases vs <;> simp [collectResults]
    | ok v =>
      cases vs with
      | nil =>
        simp only [collectResults, List.map_nil]
        cases h : collectResults os <;> simp
      | cons w ws =>
        simp only [collectResults, List.map_cons]
        cases h : collectResults os with
        | panic => simp [← ih, h]
        | noMatch e => simp [← ih, h]
        | err e => simp [← ih, h]
        | ok vs' =>
          have := ih ws
          rw [h] at this
          simp only [PResult.ok.injEq, List.cons.injEq]
          constructor
          · rintro ⟨hv, hvs⟩
            exact ⟨hv, this.mp (by rw [hvs])⟩
          · rintro ⟨hv, hos⟩
            exact ⟨hv, by
              have h2 := (ih ws).mpr hos
              rw [h] at h2
              exact (PResult.ok.injEq _ _).mp h2⟩

theorem collect_first_err (pre : List (PResult V)) (e : String)
    (rest : List (PResult V)) (h : ∀ r ∈ pre, ∃ v, r = PResult.ok v) :
    collectResults (pre ++ PResult.err e :: rest) = PResult.err e := by
  induction pre with
  | nil => simp [collectResults]
  | cons r pre ih =>
    obtain ⟨v, rfl⟩ := h r (by simp)
    have := ih (fun r hr => h r (by simp [hr]))
    simp only [List.cons_append, collectResults, List.append_eq, this]

/-! Claim theorems. -/

/-- C1: the generated `from_str` starts `from_captures` at offset 1; the
generated `from_captures` evaluates each surviving field's reconstruction
at exactly the offset assigned to it by threading
`offset += captures_count` (equivalently, its prefix-sum offset); and the
offset assignment from base 1 satisfies `offset(f1) = 1` and
`offset(f_{i+1}) = offset(f_i) + w_i`. -/
theorem offset_assignment_prefix_sums :
    (∀ (V : Type) (fields : List (Field V))
        (engine : String → String → Option Captures) (re input : String)
        (c : Captures), engine re input = some c →
        from_str engine re fields input = derived_from_captures fields c 1)
    ∧ (∀ (V : Type) (fields : List (Field V)) (c : Captures) (off : Nat),
        derived_from_captures fields c off
          = collectResults (fieldOutcomes fields c off))
    ∧ (∀ ws : List Nat, ws ≠ [] → (fieldOffsets ws 1).getD 0 0 = 1)
    ∧ (∀ (ws : List Nat) (i : Nat), i + 1 < ws.length →
        (fieldOffsets ws 1).getD (i + 1) 0
          = (fieldOffsets ws 1).getD i 0 + ws.getD i 0) := by
  refine ⟨?_, ?_, ?_, ?_⟩
  · intro V fields engine re input c h
    simp [from_str, h]
  · intro V fields c off
    exact derived_eq_collect fields c off
  · intro ws h
    cases ws with
    | nil => simp at h
    | cons w ws => simp [fieldOffsets]
  · intro ws i h
    have h1 : i < ws.length := by omega
    have hg : ws[i]? = some ws[i] := List.getElem?_eq_getElem h1
    rw [fieldOffsets_getD ws 1 (i + 1) h, fieldOffsets_getD ws 1 i h1,
      List.take_succ, List.sum_append, hg]
    simp only [List.getD_eq_getElem?_getD, hg, Option.toList_some,
      List.sum_cons, List.sum_nil, Option.getD_some]
    omega

/-- Witness for C1 at concrete inputs. -/
theorem offset_assignment_prefix_sums_witness :
    from_str (fun _ _ => some ([] : Captures)) "p" ([] : List (Field Nat)) "i"
        = derived_from_captures ([] : List (Field Nat)) ([] : Captures) 1
    ∧ (fieldOffsets [2, 3] 1).getD 0 0 = 1
    ∧ (fieldOffsets [2, 3] 1).getD 1 0
        = (fieldOffsets [2, 3] 1).getD 0 0 + List.getD [2, 3] 0 0 :=
  ⟨offset_assignment_prefix_sums.1 Nat [] (fun _ _ => some []) "p" "i" [] rfl,
   offset_assignment_prefix_sums.2.2.1 [2, 3] (by simp),
   offset_assignment_prefix_sums.2.2.2 [2, 3] 0 (by simp)⟩

/-- C2 counterexample: the claim says a doubled open-bracket, literal
text, doubled close-bracket span contributes zero placeholder names, so
extracting from the template consisting of exactly such a span would give
the empty set; the scanner actually yields a placeholder. -/
theorem arguments_doubled_open_nonempty :
    arguments "\x7b\x7btext\x7d\x7d" ≠ [] := by decide

/-- C2 (amended): on a doubled open-bracket the scanner skips the push
for the first bracket only; the peeked second bracket is not consumed and
is processed again, so a doubled-open/doubled-close span around literal
text contributes exactly one placeholder named by that text
(`arguments "\x7b\x7btext\x7d\x7d" = \x7b"text"\x7d`). -/
theorem doubled_brace_span_behavior :
    (∀ (cs : List Char) (i : Nat) (rest : List Char) (stack : List Nat)
        (found : List String),
        argumentsAux cs i (openBrace :: openBrace :: rest) stack found
          = argumentsAux cs (i + 1) (openBrace :: rest) stack found)
    ∧ arguments "\x7b\x7btext\x7d\x7d" = ["text"] := by
  constructor
  · intro cs i rest stack found
    simp [argumentsAux]
  · decide

/-- C7: the placeholder scan follows stack discipline: a close bracket
pops the most recently pushed open-bracket position and records the
substring strictly between them; a close bracket with an empty stack is a
literal no-op; and at end of input any unmatched open brackets are
silently discarded. -/
theorem bracket_stack_discipline :
    (∀ (cs : List Char) (i : Nat) (rest : List Char) (start : Nat)
        (stack : List Nat) (found : List String),
        argumentsAux cs i (closeBrace :: rest) (start :: stack) found
          = argumentsAux cs (i + 1) rest stack
              (insertNew found (substrOf cs start i)))
    ∧ (∀ (cs : List Char) (i : Nat) (rest : List Char) (found : List String),
        argumentsAux cs i (closeBrace :: rest) [] found
          = argumentsAux cs (i + 1) rest [] found)
    ∧ (∀ (cs : List Char) (i : Nat) (stack : List Nat) (found : List String),
        argumentsAux cs i [] stack found = found) := by
  have hne : ¬(closeBrace = openBrace) := by decide
  refine ⟨?_, ?_, ?_⟩
  · intro cs i rest start stack found
    simp [argumentsAux, hne]
  · intro cs i rest found
    simp [argumentsAux, hne]
  · intro cs i stack found
    simp [argumentsAux]

/-- C3: fields whose names do not occur in the template's placeholder set
are excluded from the generated impl (composed pattern, capture-width sum,
offset assignment and reconstruction are all built from the surviving
fields only, so inserting a non-participating field anywhere in the schema
leaves the generated impl unchanged); the surviving fields are the
in-order filter of the schema; and compiling a schema containing a
non-participating field does not produce a compile error. -/
theorem nonparticipating_fields_excluded (V : Type) (re_str : String)
    (fields₁ fields₂ : List (Field V)) (f : Field V)
    (h : f.name ∉ arguments re_str) :
    impl_from_str_body (AttrExpr.strLit re_str)
        (StructData.structNamed (fields₁ ++ f :: fields₂))
      = impl_from_str_body (AttrExpr.strLit re_str)
          (StructData.structNamed (fields₁ ++ fields₂))
    ∧ (∃ impl, impl_from_str_body (AttrExpr.strLit re_str)
        (StructData.structNamed (fields₁ ++ f :: fields₂)) = Except.ok impl)
    ∧ (∀ fields : List (Field V),
        ((fields.filter (fun g => decide (g.name ∈ arguments re_str))).Sublist
          fields)
        ∧ (∀ g, g ∈ fields.filter (fun g => decide (g.name ∈ arguments re_str))
            ↔ g ∈ fields ∧ g.name ∈ arguments re_str)
        ∧ impl_from_str_body (AttrExpr.strLit re_str)
            (StructData.structNamed fields)
          = Except.ok (quote_impl_reformation re_str
              (fields.filter (fun g => decide (g.name ∈ arguments re_str))))) := by
  have hbody : ∀ fields : List (Field V),
      impl_from_str_body (AttrExpr.strLit re_str)
        (StructData.structNamed fields)
      = Except.ok (quote_impl_reformation re_str
          (fields.filter (fun g => decide (g.name ∈ arguments re_str)))) :=
    fun fields => rfl
  refine ⟨?_, ?_, ?_⟩
  · rw [hbody, hbody]
    have hf : (fun g : Field V => decide (g.name ∈ arguments re_str)) f
        = false := by simpa using h
    simp [List.filter_append, List.filter_cons, hf]
  · exact ⟨_, hbody _⟩
  · intro fields
    refine ⟨List.filter_sublist fields, ?_, hbody fields⟩
    intro g
    simp [List.mem_filter]

/-- Witness for C3 at a concrete schema and template: a schema with the
extra non-participating field "b" compiles to the same impl as the schema
without it. -/
theorem nonparticipating_fields_excluded_witness :
    impl_from_str_body (AttrExpr.strLit "\x7ba\x7d")
        (StructData.structNamed
          ([] ++ fieldOf "b" u8_Reformation :: [fieldOf "a" u8_Reformation]))
      = impl_from_str_body (AttrExpr.strLit "\x7ba\x7d")
          (StructData.structNamed ([] ++ [fieldOf "a" u8_Reformation])) :=
  (nonparticipating_fields_excluded Nat "\x7ba\x7d" []
    [fieldOf "a" u8_Reformation] (fieldOf "b" u8_Reformation) (by decide)).1

/-- C4: the derived `captures_count` is the sum, in surviving-field order,
of the fields' capture widths; and every primitive implementor declares
`captures_count() = 1` and its sub-pattern string contains exactly one
capturing group. -/
theorem captures_count_sum_and_primitive_groups :
    (∀ (V : Type) (re_str : String) (surviving : List (Field V)),
        (quote_impl_reformation re_str surviving).captures_count
          = (surviving.map Field.width).sum)
    ∧ (u8_Reformation.captures_count = 1
        ∧ capturingGroups u8_Reformation.regexStr = 1)
    ∧ (u16_Reformation.captures_count = 1
        ∧ capturingGroups u16_Reformation.regexStr = 1)
    ∧ (u32_Reformation.captures_count = 1
        ∧ capturingGroups u32_Reformation.regexStr = 1)
    ∧ (u64_Reformation.captures_count = 1
        ∧ capturingGroups u64_Reformation.regexStr = 1)
    ∧ (u128_Reformation.captures_count = 1
        ∧ capturingGroups u128_Reformation.regexStr = 1)
    ∧ (usize_Reformation.captures_count = 1
        ∧ capturingGroups usize_Reformation.regexStr = 1)
    ∧ (i8_Reformation.captures_count = 1
        ∧ capturingGroups i8_Reformation.regexStr = 1)
    ∧ (i16_Reformation.captures_count = 1
        ∧ capturingGroups i16_Reformation.regexStr = 1)
    ∧ (i32_Reformation.captures_count = 1
        ∧ capturingGroups i32_Reformation.regexStr = 1)
    ∧ (i64_Reformation.captures_count = 1
        ∧ capturingGroups i64_Reformation.regexStr = 1)
    ∧ (i128_Reformation.captures_count = 1
        ∧ capturingGroups i128_Reformation.regexStr = 1)
    ∧ (isize_Reformation.captures_count = 1
        ∧ capturingGroups isize_Reformation.regexStr = 1)
    ∧ (f32_Reformation.captures_count = 1
        ∧ capturingGroups f32_Reformation.regexStr = 1)
    ∧ (f64_Reformation.captures_count = 1
        ∧ capturingGroups f64_Reformation.regexStr = 1)
    ∧ (String_Reformation.captures_count = 1
        ∧ capturingGroups String_Reformation.regexStr = 1) :=
  ⟨fun _ _ surviving => derived_captures_count_eq_sum surviving, by decide⟩

/-- C5: for an input the engine matches, parse succeeds with a fully
populated record exactly when every surviving field's reconstruction at
its assigned offset succeeds (the record holds exactly those values, in
order); and if the first non-successful reconstruction fails with an
error, the whole parse returns that error, so no partial record is ever
produced. -/
theorem parse_all_or_nothing (V : Type) (fields : List (Field V))
    (engine : String → String → Option Captures) (re input : String)
    (c : Captures) (h : engine re input = some c) :
    (∀ vs, from_str engine re fields input = PResult.ok vs
        ↔ fieldOutcomes fields c 1 = vs.map PResult.ok)
    ∧ (∀ (pre : List (PResult V)) (e : String) (rest : List (PResult V)),
        fieldOutcomes fields c 1 = pre ++ PResult.err e :: rest →
        (∀ r ∈ pre, ∃ v, r = PResult.ok v) →
        from_str engine re fields input = PResult.err e) := by
  have hfs : from_str engine re fields input
      = derived_from_captures fields c 1 := by
    simp [from_str, h]
  rw [hfs, derived_eq_collect]
  constructor
  · intro vs
    exact collect_ok_iff _ _
  · intro pre e rest hout hpre
    rw [hout]
    exact collect_first_err pre e rest hpre

/-- Witness for C5: a schema with one `u8` field, matched text "300";
the numeric reconstruction overflows and the whole parse returns the
wrapped error. -/
theorem parse_all_or_nothing_witness :
    from_str (fun _ _ => some [some "300", some "300"]) "p"
        [fieldOf "x" u8_Reformation] "300"
      = PResult.err "number too large to fit in target type" :=
  (parse_all_or_nothing Nat [fieldOf "x" u8_Reformation]
      (fun _ _ => some [some "300", some "300"]) "p" "300"
      [some "300", some "300"] rfl).2
    [] "number too large to fit in target type" [] (by decide)
    (by intro r hr; simp at hr)

/-- C6: when the engine finds no match, parse returns a `NoRegexMatch`
whose `request` field is the original input string verbatim and whose
`format` field is the pattern string handed to the engine for matching. -/
theorem no_match_error_carries_input (V : Type) (fields : List (Field V))
    (engine : String → String → Option Captures) (re input : String)
    (h : engine re input = none) :
    from_str engine re fields input
      = PResult.noMatch { format := re, request := input } := by
  simp [from_str, h]

/-- Witness for C6 at a concrete rejected input. -/
theorem no_match_error_carries_input_witness :
    from_str (fun _ _ => none) "pat" ([] : List (Field Nat)) "not-a-date"
      = PResult.noMatch { format := "pat", request := "not-a-date" } :=
  no_match_error_carries_input Nat [] (fun _ _ => none) "pat" "not-a-date" rfl

/-- C8 counterexample: with the leftmost-substring engine, the template
"ab" (which supplies no anchoring) accepts the input "xxabyy", which has
extra text before and after the region matching the composed pattern —
the claim says such an input is not accepted. -/
theorem unanchored_match_accepts_surrounded_input :
    from_str literalCaptures "ab" ([] : List (Field Nat)) "xxabyy"
        = PResult.ok []
    ∧ "xxabyy" ≠ "ab" := by decide

/-- C8 (amended): parse hands the composed pattern to the engine's
`captures` search unchanged — it adds no anchoring and never checks that
the matched region spans the whole input, accepting whenever the engine
finds captures anywhere; so under the engine's leftmost-substring
semantics an input with extra text around a matching region is accepted
unless the template itself supplies anchoring. -/
theorem matcher_applies_engine_unanchored :
    (∀ (V : Type) (fields : List (Field V))
        (engine : String → String → Option Captures) (re input : String),
        (engine re input = none →
          from_str engine re fields input = PResult.noMatch ⟨re, input⟩)
        ∧ (∀ c, engine re input = some c →
            from_str engine re fields input = derived_from_captures fields c 1))
    ∧ from_str literalCaptures "cd" ([] : List (Field Nat)) "xcdy"
        = PResult.ok [] := by
  constructor
  · intro V fields engine re input
    constructor
    · intro h
      simp [from_str, h]
    · intro c h
      simp [from_str, h]
  · decide

/-- Witness for C8's amended theorem. -/
theorem matcher_applies_engine_unanchored_witness :
    from_str (fun _ _ => none) "q" ([] : List (Field Nat)) "zz"
        = PResult.noMatch ⟨"q", "zz"⟩
    ∧ from_str (fun _ _ => some ([] : Captures)) "q" ([] : List (Field Nat))
        "zz"
      = derived_from_captures ([] : List (Field Nat)) ([] : Captures) 1 :=
  ⟨(matcher_applies_engine_unanchored.1 Nat [] (fun _ _ => none) "q" "zz").1
      rfl,
   (matcher_applies_engine_unanchored.1 Nat [] (fun _ _ => some []) "q"
      "zz").2 [] rfl⟩

/-- C9: the `Display` rendering of `NoRegexMatch` fills the message
template "String {:?} does not match format r{:?}" with `format` first
and `request` second, so the slot the wording labels as the rejected
string holds the format and the slot labelled as the format holds the
rejected input. -/
theorem display_fields_interchanged :
    (∀ f r : String, NoRegexMatch.display { format := f, request := r }
        = "String " ++ rustDebug f ++ " does not match format r"
            ++ rustDebug r)
    ∧ NoRegexMatch.display { format := "FMT", request := "REQ" }
        = "String \"FMT\" does not match format r\"REQ\"" := by
  constructor
  · intro f r
    rfl
  · decide

/-- C10: a primitive `from_captures` is not total in its offset: when the
capture group at the offset does not exist or did not participate, the
`unwrap` panics instead of returning an error; when the group is present
the call never panics; and the result depends only on that single capture
group. -/
theorem prim_from_captures_offset_totality (α : Type)
    (parse : String → Except String α) (c : Captures) (offset : Nat) :
    (capGet c offset = none →
      prim_from_captures parse c offset = PResult.panic)
    ∧ (∀ s, capGet c offset = some s →
        prim_from_captures parse c offset ≠ PResult.panic)
    ∧ (∀ c' : Captures, capGet c' offset = capGet c offset →
        prim_from_captures parse c' offset
          = prim_from_captures parse c offset) := by
  refine ⟨?_, ?_, ?_⟩
  · intro h
    simp [prim_from_captures, h]
  · intro s h
    simp only [prim_from_captures, h]
    cases parse s <;> simp
  · intro c' h
    simp only [prim_from_captures, h]

/-- Witness for C10 on the `u8` primitive: a missing group panics, a
present group does not, and a change outside the read group is invisible. -/
theorem prim_from_captures_offset_totality_witness :
    prim_from_captures (rustParseUnsigned 255) [some "w"] 5 = PResult.panic
    ∧ prim_from_captures (rustParseUnsigned 255) [some "w", some "12"] 1
        ≠ PResult.panic
    ∧ prim_from_captures (rustParseUnsigned 255) [some "zz", some "12"] 1
        = prim_from_captures (rustParseUnsigned 255) [some "w", some "12"] 1 :=
  ⟨(prim_from_captures_offset_totality Nat (rustParseUnsigned 255)
      [some "w"] 5).1 (by decide),
   (prim_from_captures_offset_totality Nat (rustParseUnsigned 255)
      [some "w", some "12"] 1).2.1 "12" (by decide),
   (prim_from_captures_offset_totality Nat (rustParseUnsigned 255)
      [some "w", some "12"] 1).2.2 [some "zz", some "12"] (by decide)⟩

end Reformation
